import Mathlib

/-!
libcutter: the OpenCV simulator device (`src/lib/device_cv_sim.cpp`).

A shallow embedding of `Device::CV_sim`.  Coordinates (`double` in the source)
are exact rationals.  The OpenCV raster is not rasterised here: an image is its
geometry, the byte buffer it was allocated with, and the list of drawing
primitives (`cvLine`, `cvCircle`) applied to it since, in call order.
-/

namespace Device

/-! ## Constants of the translation unit -/

def DPI_X : Nat := 100
def DPI_Y : Nat := 100
def DEFAULT_SIZE_X : Nat := 6
def DEFAULT_SIZE_Y : Nat := 6
def NUM_SECTIONS_PER_CURVE : Nat := 20
/-- OpenCV line type `CV_AA`. -/
def CV_AA : Int := 16

/-! ## Values -/

/-- The `xy` point of `types.h`: two `double` coordinates, here exact. -/
structure xy where
  x : ℚ
  y : ℚ
deriving DecidableEq, Repr

/-- Conversion of a `double` to `int`, as C++ does it implicitly at a call that
expects an `int` and explicitly at `(int)`: truncation toward zero. -/
def toInt (q : ℚ) : Int := Int.tdiv q.num (q.den : Int)

structure CvPoint where
  x : Int
  y : Int
deriving DecidableEq, Repr

/-- The call `cvPoint( a, b )` with `double` arguments: both are converted to `int`. -/
def cvPoint (a b : ℚ) : CvPoint := ⟨toInt a, toInt b⟩

/-- The four channels of a `CvScalar`. -/
structure CvScalar where
  v0 : ℚ
  v1 : ℚ
  v2 : ℚ
  v3 : ℚ
deriving DecidableEq, Repr

/-- The call `cvScalar( a, b, c )`: the fourth channel defaults to 0. -/
def cvScalar (a b c : ℚ) : CvScalar := ⟨a, b, c, 0⟩

/-- A drawing primitive as the OpenCV call receives it. -/
inductive DrawOp where
  | line (pt1 pt2 : CvPoint) (color : CvScalar) (thickness lineType shift : Int)
  | circle (center : CvPoint) (radius : Int) (color : CvScalar) (thickness lineType shift : Int)
deriving DecidableEq, Repr

/-- An `IplImage` of depth `IPL_DEPTH_8U` with one channel. `imageData` is the
buffer as allocation and `memset` left it; `drawn` lists the primitives applied
to the image afterwards, oldest first. -/
structure IplImage where
  width : Nat
  height : Nat
  imageSize : Nat
  imageData : List Nat
  drawn : List DrawOp
deriving DecidableEq, Repr

/-- Row stride of an 8-bit single-channel image: the width rounded up to a multiple of 4. -/
def widthStep (width : Nat) : Nat := (width + 3) / 4 * 4

/-- The call `cvCreateImage( cvSize( w, h ), IPL_DEPTH_8U, 1 )`. The buffer is
not initialised by OpenCV: `fresh i` is whatever byte the allocator left at offset `i`. -/
def cvCreateImage (fresh : Nat → Nat) (w h : Nat) : IplImage :=
  { width := w, height := h, imageSize := h * widthStep w,
    imageData := (List.range (h * widthStep w)).map fresh, drawn := [] }

/-- The call `memset( buf, v, n )` on a buffer held as a list. -/
def memset (buf : List Nat) (v n : Nat) : List Nat :=
  List.replicate (min n buf.length) v ++ buf.drop n

/-- The call `cvLine` with every argument given. -/
def cvLine (img : IplImage) (pt1 pt2 : CvPoint) (color : CvScalar)
    (thickness lineType shift : Int) : IplImage :=
  { img with drawn := img.drawn ++ [DrawOp.line pt1 pt2 color thickness lineType shift] }

/-- The call `cvCircle` with every argument given. -/
def cvCircle (img : IplImage) (center : CvPoint) (radius : Int) (color : CvScalar)
    (thickness lineType shift : Int) : IplImage :=
  { img with drawn := img.drawn ++ [DrawOp.circle center radius color thickness lineType shift] }

/-- The call `cvCloneImage`: an independent copy. -/
def cvCloneImage (img : IplImage) : IplImage := img

/-- Size of a `std::string`: its number of `char`s, that is bytes. -/
def size (s : String) : Nat := s.utf8ByteSize

/-- The call `sqrt( n )` on an integer argument; exact when `n` is a perfect
square, which `DPI_X * DPI_Y` is. -/
def sqrt (n : Nat) : ℚ := (Nat.sqrt n : ℚ)

/-- The declared type of the member `tool_width`. The class declaration is in
`device_cv_sim.hpp`, which is not among the sources; the two candidates are an
integer type (an assignment from `double` truncates) and a floating type (the
value is kept, and `(int)tool_width` in `cut_to` truncates at the use). -/
inductive WidthType where
  | integral
  | floating
deriving DecidableEq, Repr

/-- Assignment of a `double` expression to a member of the given type. -/
def assignWidth : WidthType → ℚ → ℚ
  | WidthType.integral, v => (toInt v : ℚ)
  | WidthType.floating, v => v

/-- The data members of `CV_sim`. A `NULL` image is `none`. -/
structure CV_sim where
  current_position : xy
  output_filename : String
  running : Bool
  image : Option IplImage
  tool_width : ℚ
deriving DecidableEq, Repr

/-- One `cvSaveImage( name, image )` call: the file name and the image written. -/
structure SaveOp where
  filename : String
  image : IplImage
deriving DecidableEq, Repr

/-! ## Constructors -/

/-- The default constructor `CV_sim()`: `output_filename` is default-initialised, empty. -/
def CV_sim.mk0 : CV_sim :=
  { current_position := ⟨0, 0⟩, output_filename := "", running := false,
    image := none, tool_width := 1 }

/-- The constructor `CV_sim( filename )`. -/
def CV_sim.mk1 (filename : String) : CV_sim :=
  { current_position := ⟨0, 0⟩, output_filename := filename, running := false,
    image := none, tool_width := 1 }

/-! ## Member functions -/

def convert_to_internal (input : xy) : xy :=
  { x := input.x * DPI_X, y := input.y * DPI_Y }

def move_to (s : CV_sim) (aPoint : xy) : Bool × CV_sim :=
  if !s.running then (false, s)
  else (true, { s with current_position := convert_to_internal aPoint })

def cut_to (s : CV_sim) (aPoint : xy) : Bool × CV_sim :=
  if !s.running then (false, s)
  else
    let next_position := convert_to_internal aPoint
    let image' :=
      match s.image with
      | some img =>
          some (cvLine img
            (cvPoint s.current_position.x s.current_position.y)
            (cvPoint next_position.x next_position.y)
            (cvScalar 120 120 120)
            (toInt s.tool_width)
            CV_AA
            0)
      | none => none
    (true, { s with image := image', current_position := next_position })

/-- The point `iter` of the loop body of `curve_to` at step `i`, from the
coefficients `coeff[C]`, `coeff[B]`, `coeff[A]` computed on each axis. -/
def curve_point (p0 p1 p2 p3 : xy) (i : Nat) : xy :=
  let cX : ℚ := 3 * (p1.x - p0.x)
  let bX : ℚ := 3 * (p2.x - p1.x) - cX
  let aX : ℚ := (p3.x - p0.x) - cX - bX
  let cY : ℚ := 3 * (p1.y - p0.y)
  let bY : ℚ := 3 * (p2.y - p1.y) - cY
  let aY : ℚ := (p3.y - p0.y) - cY - bY
  let t : ℚ := (i : ℚ) / (NUM_SECTIONS_PER_CURVE : ℚ)
  { x := aX * t * t * t + bX * t * t + cX * t + p0.x,
    y := aY * t * t * t + bY * t * t + cY * t + p0.y }

/-- The loop `for( int i = 1; i <= NUM_SECTIONS_PER_CURVE; ++i )` of `curve_to`:
each pass cuts to the point of step `i`; the result of `cut_to` is not looked at. -/
def curve_loop (p0 p1 p2 p3 : xy) (s : CV_sim) : CV_sim :=
  (List.range' 1 NUM_SECTIONS_PER_CURVE).foldl
    (fun st i => (cut_to st (curve_point p0 p1 p2 p3 i)).2) s

def curve_to (s : CV_sim) (p0 p1 p2 p3 : xy) : Bool × CV_sim :=
  if !s.running then (false, s)
  else (true, curve_loop p0 p1 p2 p3 (move_to s p0).2)

/-- The member `start`. `fresh` is the content of newly allocated memory. -/
def start (fresh : Nat → Nat) (s : CV_sim) : Bool × CV_sim :=
  let image' :=
    match s.image with
    | none =>
        let img := cvCreateImage fresh (DPI_X * DEFAULT_SIZE_X) (DPI_Y * DEFAULT_SIZE_Y)
        some { img with imageData := memset img.imageData 0 img.imageSize }
    | some img => some img
  (true, { s with image := image', running := true })

/-- The member `stop`: the result, the state, and the `cvSaveImage` calls made. -/
def stop (s : CV_sim) : Bool × CV_sim × List SaveOp :=
  match s.image with
  | some img =>
      if size s.output_filename > 4 then
        (true, { s with image := none, running := false }, [⟨s.output_filename, img⟩])
      else (true, { s with running := false }, [])
  | none => (true, { s with running := false }, [])

def get_dimensions (_s : CV_sim) : xy :=
  { x := DEFAULT_SIZE_X, y := DEFAULT_SIZE_Y }

/-- The member `set_tool_width`, for a `tool_width` member of type `ty`. -/
def set_tool_width (ty : WidthType) (s : CV_sim) (temp_tool_width : ℚ) : Bool × CV_sim :=
  if temp_tool_width > 0 then
    let w := assignWidth ty (|temp_tool_width| * DPI_X * DPI_Y / sqrt (DPI_X * DPI_Y) + 1 / 2)
    (true, { s with tool_width := if w < 1 then 1 else w })
  else (false, s)

/-- The member `get_image`. `cvCloneImage( NULL )` raises an OpenCV error: no image comes back. -/
def get_image (s : CV_sim) : Option IplImage :=
  match s.image with
  | none => none
  | some img =>
      let rgb : CvScalar := ⟨250, 250, 250, 0⟩
      let n0 := cvCloneImage img
      let n1 := cvCircle n0 (cvPoint s.current_position.x s.current_position.y) 10 rgb 2 8 0
      let n2 := cvLine n1
        (cvPoint (s.current_position.x + 5) (s.current_position.y + 5))
        (cvPoint (s.current_position.x - 5) (s.current_position.y - 5)) rgb 1 8 0
      let n3 := cvLine n2
        (cvPoint (s.current_position.x + 5) (s.current_position.y - 5))
        (cvPoint (s.current_position.x - 5) (s.current_position.y + 5)) rgb 1 8 0
      some n3

/-! ## Observations used to state the properties -/

/-- The byte of pixel `(x, y)` in the buffer of an image. -/
def pixel (img : IplImage) (x y : Nat) : Option Nat :=
  img.imageData[y * widthStep img.width + x]?

/-- Start point of a line primitive. -/
def DrawOp.src : DrawOp → Option CvPoint
  | DrawOp.line pt1 _ _ _ _ _ => some pt1
  | DrawOp.circle _ _ _ _ _ _ => none

/-- End point of a line primitive. -/
def DrawOp.dst : DrawOp → Option CvPoint
  | DrawOp.line _ pt2 _ _ _ _ => some pt2
  | DrawOp.circle _ _ _ _ _ _ => none

/-- Stroke thickness of a primitive. -/
def DrawOp.thickness : DrawOp → Int
  | DrawOp.line _ _ _ t _ _ => t
  | DrawOp.circle _ _ _ t _ _ => t

def DrawOp.isLine : DrawOp → Bool
  | DrawOp.line _ _ _ _ _ _ => true
  | DrawOp.circle _ _ _ _ _ _ => false

/-- The primitives drawn on the canvas of a state; none when there is no canvas. -/
def drawn_ops (s : CV_sim) : List DrawOp :=
  match s.image with
  | some img => img.drawn
  | none => []

/-- The cubic Bezier curve of control points `p0..p3` in Bernstein form, at parameter `t`. -/
def bezier (p0 p1 p2 p3 : xy) (t : ℚ) : xy :=
  { x := (1 - t) ^ 3 * p0.x + 3 * (1 - t) ^ 2 * t * p1.x + 3 * (1 - t) * t ^ 2 * p2.x
      + t ^ 3 * p3.x,
    y := (1 - t) ^ 3 * p0.y + 3 * (1 - t) ^ 2 * t * p1.y + 3 * (1 - t) * t ^ 2 * p2.y
      + t ^ 3 * p3.y }

/-- The tool width in pixels as the specification words it: `|w|` times the
geometric mean of the two axis resolutions, rounded, and at least 1. -/
def spec_tool_width (w : ℚ) : Int := max 1 (round (|w| * 100))

/-- Cutting to each point of a list in turn, results not looked at. -/
def cut_all (s : CV_sim) (pts : List xy) : CV_sim :=
  pts.foldl (fun st p => (cut_to st p).2) s

/-- The chain of lines that cutting through `pts` from position `cur` with tool
width `tw` hands to `cvLine`. -/
def polyline (cur : xy) (tw : ℚ) : List xy → List DrawOp
  | [] => []
  | p :: ps =>
      DrawOp.line (cvPoint cur.x cur.y)
        (cvPoint (convert_to_internal p).x (convert_to_internal p).y)
        (cvScalar 120 120 120) (toInt tw) CV_AA 0
        :: polyline (convert_to_internal p) tw ps

/-- The canvas of the small devices below: 4 by 2 pixels, all zero, nothing drawn. -/
def demo_image : IplImage := ⟨4, 2, 8, [0, 0, 0, 0, 0, 0, 0, 0], []⟩

/-- A small running device with a canvas, for concrete evaluation. -/
def demo_running : CV_sim :=
  { current_position := ⟨0, 0⟩, output_filename := "out.png", running := true,
    image := some demo_image, tool_width := 1 }

/-- A small stopped device with a canvas and the empty output file name. -/
def demo_stopped : CV_sim :=
  { current_position := ⟨0, 0⟩, output_filename := "", running := false,
    image := some demo_image, tool_width := 1 }

/-! ## Call sequences -/

/-- One call of a public member function, with its arguments. For `start` the
argument is the content of the memory a new canvas would be allocated in. -/
inductive Op where
  | start (fresh : Nat → Nat)
  | stop
  | move_to (p : xy)
  | cut_to (p : xy)
  | curve_to (p0 p1 p2 p3 : xy)
  | set_tool_width (w : ℚ)
  | get_dimensions
  | get_image

/-- The state after one call. `get_dimensions` and `get_image` write no member. -/
def step (ty : WidthType) (s : CV_sim) : Op → CV_sim
  | Op.start fresh => (start fresh s).2
  | Op.stop => (stop s).2.1
  | Op.move_to p => (move_to s p).2
  | Op.cut_to p => (cut_to s p).2
  | Op.curve_to p0 p1 p2 p3 => (curve_to s p0 p1 p2 p3).2
  | Op.set_tool_width w => (set_tool_width ty s w).2
  | Op.get_dimensions => s
  | Op.get_image => s

/-- The state after a sequence of calls, first call first. -/
def run (ty : WidthType) (s : CV_sim) (ops : List Op) : CV_sim :=
  ops.foldl (step ty) s

/-- The calls that move the tool: `move_to`, `cut_to`, `curve_to`. -/
def Op.isMotion : Op → Bool
  | Op.move_to _ => true
  | Op.cut_to _ => true
  | Op.curve_to _ _ _ _ => true
  | _ => false

/-- The scaling back from raster to logical coordinates: division by 100 on each axis. -/
def convert_to_logical (q : xy) : xy :=
  { x := q.x / 100, y := q.y / 100 }

/-- Sum of two points, axis by axis. -/
def xy.add (p q : xy) : xy := { x := p.x + q.x, y := p.y + q.y }

/-- A point scaled by `k` on both axes. -/
def xy.smul (k : ℚ) (p : xy) : xy := { x := k * p.x, y := k * p.y }

/-- A device built on the name "out.png", started, moved to (0,0) and cut to (1,1). -/
def demo_drawn : CV_sim :=
  (cut_to (move_to (start (fun _ => 0) (CV_sim.mk1 "out.png")).2 ⟨0, 0⟩).2 ⟨1, 1⟩).2

/-- The arithmetic of the machine on values held as rationals: the four
`double` operations with their rounding, the store into a coordinate of an
`xy`, and the conversion to `int`. What is known of them: a product of two
whole numbers of size at most 1000 is exact, a whole number of size at most
1000000 is stored unchanged, and a value of size at most 1000000 converts to
`int` by truncation toward zero. -/
structure FloatOps where
  add : ℚ → ℚ → ℚ
  sub : ℚ → ℚ → ℚ
  mul : ℚ → ℚ → ℚ
  div : ℚ → ℚ → ℚ
  coord : ℚ → ℚ
  toInt : ℚ → Int
  mul_whole : ∀ a b : Int, |a| ≤ 1000 → |b| ≤ 1000 → mul (a : ℚ) (b : ℚ) = ((a * b : Int) : ℚ)
  coord_whole : ∀ a : Int, |a| ≤ 1000000 → coord (a : ℚ) = (a : ℚ)
  toInt_small : ∀ q : ℚ, |q| ≤ 1000000 → toInt q = Device.toInt q

/-- Arithmetic without rounding and without a bound on `int`. -/
def exactOps : FloatOps :=
  { add := fun a b => a + b, sub := fun a b => a - b, mul := fun a b => a * b,
    div := fun a b => a / b, coord := fun a => a, toInt := Device.toInt,
    mul_whole := fun a b _ _ => by push_cast; rfl,
    coord_whole := fun _ _ => rfl,
    toInt_small := fun _ _ => rfl }

/-- The call `cvPoint( a, b )` with `double` arguments, converted by the machine. -/
def cvPoint_fp (F : FloatOps) (a b : ℚ) : CvPoint := ⟨F.toInt a, F.toInt b⟩

/-- The member `convert_to_internal` over machine arithmetic. -/
def convert_to_internal_fp (F : FloatOps) (input : xy) : xy :=
  { x := F.coord (F.mul input.x DPI_X), y := F.coord (F.mul input.y DPI_Y) }

/-- The member `move_to` over machine arithmetic. -/
def move_to_fp (F : FloatOps) (s : CV_sim) (aPoint : xy) : Bool × CV_sim :=
  if !s.running then (false, s)
  else (true, { s with current_position := convert_to_internal_fp F aPoint })

/-- The member `cut_to` over machine arithmetic. -/
def cut_to_fp (F : FloatOps) (s : CV_sim) (aPoint : xy) : Bool × CV_sim :=
  if !s.running then (false, s)
  else
    let next_position := convert_to_internal_fp F aPoint
    let image' :=
      match s.image with
      | some img =>
          some (cvLine img
            (cvPoint_fp F s.current_position.x s.current_position.y)
            (cvPoint_fp F next_position.x next_position.y)
            (cvScalar 120 120 120)
            (F.toInt s.tool_width)
            CV_AA
            0)
      | none => none
    (true, { s with image := image', current_position := next_position })

/-- The point `iter` of step `i` of `curve_to` over machine arithmetic, every
operation of src lines 119-132 in its order. -/
def curve_point_fp (F : FloatOps) (p0 p1 p2 p3 : xy) (i : Nat) : xy :=
  let cX : ℚ := F.mul 3 (F.sub p1.x p0.x)
  let bX : ℚ := F.sub (F.mul 3 (F.sub p2.x p1.x)) cX
  let aX : ℚ := F.sub (F.sub (F.sub p3.x p0.x) cX) bX
  let cY : ℚ := F.mul 3 (F.sub p1.y p0.y)
  let bY : ℚ := F.sub (F.mul 3 (F.sub p2.y p1.y)) cY
  let aY : ℚ := F.sub (F.sub (F.sub p3.y p0.y) cY) bY
  let t : ℚ := F.div (i : ℚ) (NUM_SECTIONS_PER_CURVE : ℚ)
  { x := F.coord (F.add (F.add (F.add (F.mul (F.mul (F.mul aX t) t) t) (F.mul (F.mul bX t) t))
      (F.mul cX t)) p0.x),
    y := F.coord (F.add (F.add (F.add (F.mul (F.mul (F.mul aY t) t) t) (F.mul (F.mul bY t) t))
      (F.mul cY t)) p0.y) }

theorem sqrt_DPI : sqrt (DPI_X * DPI_Y) = 100 := by
  have h : Nat.sqrt (100 * 100) = 100 := Nat.sqrt_eq 100
  simp only [sqrt, DPI_X, DPI_Y, h]
  norm_num

theorem toInt_of_nonneg (q : ℚ) (h : 0 ≤ q) : toInt q = ⌊q⌋ := by
  have hn : 0 ≤ q.num := Rat.num_nonneg.mpr h
  rw [Rat.floor_def, toInt]
  exact Int.tdiv_eq_ediv hn (by positivity)

theorem toInt_intCast (n : Int) : toInt (n : ℚ) = n := by
  simp [toInt]

theorem curve_point_last (p0 p1 p2 p3 : xy) :
    curve_point p0 p1 p2 p3 NUM_SECTIONS_PER_CURVE = p3 := by
  cases p3
  simp only [curve_point, NUM_SECTIONS_PER_CURVE]
  congr 1 <;> ring

theorem cut_to_running (s : CV_sim) (p : xy) : (cut_to s p).2.running = s.running := by
  unfold cut_to
  split <;> rfl

theorem cut_to_tool_width (s : CV_sim) (p : xy) : (cut_to s p).2.tool_width = s.tool_width := by
  unfold cut_to
  split <;> rfl

theorem cut_to_position (s : CV_sim) (h : s.running = true) (p : xy) :
    (cut_to s p).2.current_position = convert_to_internal p := by
  simp [cut_to, h]

theorem cut_to_image (s : CV_sim) (h : s.running = true) (img : IplImage)
    (hi : s.image = some img) (p : xy) :
    (cut_to s p).2.image = some { img with drawn := img.drawn ++ polyline s.current_position s.tool_width [p] } := by
  simp [cut_to, h, hi, cvLine, polyline]

theorem cut_all_running (pts : List xy) (s : CV_sim) : (cut_all s pts).running = s.running := by
  induction pts generalizing s with
  | nil => rfl
  | cons p ps ih =>
      show (cut_all (cut_to s p).2 ps).running = s.running
      rw [ih, cut_to_running]

theorem cut_all_append (s : CV_sim) (pts : List xy) (q : xy) :
    cut_all s (pts ++ [q]) = (cut_to (cut_all s pts) q).2 := by
  simp [cut_all, List.foldl_append]

theorem cut_all_image (pts : List xy) (s : CV_sim) (h : s.running = true) (img : IplImage)
    (hi : s.image = some img) :
    (cut_all s pts).image
      = some { img with drawn := img.drawn ++ polyline s.current_position s.tool_width pts } := by
  induction pts generalizing s img with
  | nil => simp [cut_all, polyline, hi]
  | cons p ps ih =>
      show (cut_all (cut_to s p).2 ps).image = _
      rw [ih (cut_to s p).2 (by rw [cut_to_running, h]) _ (cut_to_image s h img hi p),
        cut_to_position s h, cut_to_tool_width]
      simp [polyline]

theorem polyline_length (pts : List xy) (cur : xy) (tw : ℚ) :
    (polyline cur tw pts).length = pts.length := by
  induction pts generalizing cur with
  | nil => rfl
  | cons p ps ih => simp [polyline, ih]

theorem polyline_isLine (pts : List xy) (cur : xy) (tw : ℚ) :
    ∀ op ∈ polyline cur tw pts, op.isLine = true := by
  induction pts generalizing cur with
  | nil => simp [polyline]
  | cons p ps ih =>
      intro op hop
      simp only [polyline, List.mem_cons] at hop
      rcases hop with rfl | hop
      · rfl
      · exact ih _ op hop

theorem polyline_head (pts : List xy) (cur : xy) (tw : ℚ) (h : pts ≠ []) :
    (polyline cur tw pts).head?.bind DrawOp.src = some (cvPoint cur.x cur.y) := by
  cases pts with
  | nil => exact absurd rfl h
  | cons p ps => rfl

theorem polyline_dst (pts : List xy) (cur : xy) (tw : ℚ) (k : Nat) (h : k < pts.length) :
    (polyline cur tw pts)[k]?.bind DrawOp.dst
      = pts[k]?.map (fun p => cvPoint (convert_to_internal p).x (convert_to_internal p).y) := by
  induction pts generalizing cur k with
  | nil => simp at h
  | cons p ps ih =>
      cases k with
      | zero => simp [polyline, DrawOp.dst]
      | succ k =>
          simp only [polyline, List.getElem?_cons_succ]
          exact ih _ k (by simpa using h)

theorem polyline_chain (pts : List xy) (cur : xy) (tw : ℚ) (k : Nat) (h : k + 1 < pts.length) :
    (polyline cur tw pts)[k + 1]?.bind DrawOp.src
      = (polyline cur tw pts)[k]?.bind DrawOp.dst := by
  induction pts generalizing cur k with
  | nil => simp at h
  | cons p ps ih =>
      cases k with
      | zero =>
          cases ps with
          | nil => simp at h
          | cons q qs => simp [polyline, DrawOp.dst, DrawOp.src]
      | succ k =>
          simp only [polyline, List.getElem?_cons_succ]
          exact ih _ k (by simpa using h)

theorem curve_loop_eq (p0 p1 p2 p3 : xy) (s : CV_sim) :
    curve_loop p0 p1 p2 p3 s
      = cut_all s ((List.range' 1 NUM_SECTIONS_PER_CURVE).map (curve_point p0 p1 p2 p3)) := by
  simp [curve_loop, cut_all, List.foldl_map]

theorem curve_to_running (s : CV_sim) (h : s.running = true) (p0 p1 p2 p3 : xy) :
    curve_to s p0 p1 p2 p3
      = (true, cut_all { s with current_position := convert_to_internal p0 }
          ((List.range' 1 NUM_SECTIONS_PER_CURVE).map (curve_point p0 p1 p2 p3))) := by
  simp [curve_to, move_to, h, curve_loop_eq]

theorem sections_split :
    List.range' 1 NUM_SECTIONS_PER_CURVE = List.range' 1 19 ++ [NUM_SECTIONS_PER_CURVE] := by
  decide

theorem memset_full (buf : List Nat) (v : Nat) :
    memset buf v buf.length = List.replicate buf.length v := by
  simp [memset]

theorem stop_without_save (s : CV_sim) (h : size s.output_filename ≤ 4) :
    stop s = (true, { s with running := false }, []) := by
  unfold stop
  have h4 : ¬ size s.output_filename > 4 := by omega
  cases hi : s.image <;> simp [h4]

theorem tool_width_value (w : ℚ) :
    |w| * DPI_X * DPI_Y / sqrt (DPI_X * DPI_Y) + 1 / 2 = |w| * 100 + 1 / 2 := by
  rw [sqrt_DPI]
  simp only [DPI_X, DPI_Y]
  push_cast
  ring

theorem spec_tool_width_eq (w : ℚ) : spec_tool_width w = max 1 ⌊|w| * 100 + 1 / 2⌋ := by
  rw [spec_tool_width, round_eq]

theorem set_tool_width_floating (s : CV_sim) (w : ℚ) (hw : w > 0) :
    (set_tool_width WidthType.floating s w).2.tool_width = max 1 (|w| * 100 + 1 / 2) := by
  simp only [set_tool_width, hw, if_true, tool_width_value, assignWidth]
  by_cases h : |w| * 100 + 1 / 2 < 1
  · rw [if_pos h, max_eq_left h.le]
  · rw [if_neg h, max_eq_right (not_lt.mp h)]

theorem set_tool_width_integral (s : CV_sim) (w : ℚ) (hw : w > 0) :
    (set_tool_width WidthType.integral s w).2.tool_width = ((spec_tool_width w : Int) : ℚ) := by
  have hv : (0 : ℚ) ≤ |w| * 100 + 1 / 2 := by positivity
  simp only [set_tool_width, hw, if_true, tool_width_value, assignWidth, spec_tool_width_eq,
    toInt_of_nonneg _ hv]
  by_cases h : ((⌊|w| * 100 + 1 / 2⌋ : Int) : ℚ) < 1
  · have h1 : ⌊|w| * 100 + 1 / 2⌋ < 1 := by exact_mod_cast h
    rw [if_pos h, max_eq_left h1.le]
    norm_num
  · have h1 : 1 ≤ ⌊|w| * 100 + 1 / 2⌋ := by exact_mod_cast not_lt.mp h
    rw [if_neg h, max_eq_right h1]

theorem set_tool_width_thickness (ty : WidthType) (s : CV_sim) (w : ℚ) (hw : w > 0) :
    toInt (set_tool_width ty s w).2.tool_width = spec_tool_width w := by
  cases ty with
  | integral => rw [set_tool_width_integral s w hw, toInt_intCast]
  | floating =>
      rw [set_tool_width_floating s w hw, spec_tool_width_eq,
        toInt_of_nonneg _ (le_trans zero_le_one (le_max_left _ _))]
      by_cases h : |w| * 100 + 1 / 2 < 1
      · have h0 : ⌊|w| * 100 + 1 / 2⌋ < 1 := Int.floor_lt.mpr (by exact_mod_cast h)
        rw [max_eq_left h.le, max_eq_left h0.le]
        exact Int.floor_one
      · have h1 : (1 : ℚ) ≤ |w| * 100 + 1 / 2 := not_lt.mp h
        have h0 : 1 ≤ ⌊|w| * 100 + 1 / 2⌋ := Int.le_floor.mpr (by exact_mod_cast h1)
        rw [max_eq_right h1, max_eq_right h0]

theorem set_tool_width_frame (ty : WidthType) (s : CV_sim) (w : ℚ) :
    (set_tool_width ty s w).2.running = s.running ∧
      (set_tool_width ty s w).2.image = s.image ∧
      (set_tool_width ty s w).2.current_position = s.current_position ∧
      (set_tool_width ty s w).2.output_filename = s.output_filename := by
  unfold set_tool_width
  split <;> simp

theorem widthStep_default : widthStep (DPI_X * DEFAULT_SIZE_X) = 600 := by decide

theorem start_with_canvas (fresh : Nat → Nat) (s : CV_sim) (img : IplImage)
    (hi : s.image = some img) : start fresh s = (true, { s with running := true }) := by
  cases s
  simp only at hi
  subst hi
  rfl

theorem start_image_present (fresh : Nat → Nat) (s : CV_sim) :
    ∃ img, (start fresh s).2.image = some img := by
  unfold start
  cases s.image <;> exact ⟨_, rfl⟩

/-! ## Motion while stopped -/

/-- Claim C1: on a stopped device `move_to`, `cut_to` and `curve_to` each return
false and give back the state they received, so position, canvas, drawn
primitives, tool width and the running flag are all as before. -/
theorem stopped_motion_is_rejected (s : CV_sim) (h : s.running = false)
    (p p0 p1 p2 p3 : xy) :
    move_to s p = (false, s) ∧ cut_to s p = (false, s) ∧
      curve_to s p0 p1 p2 p3 = (false, s) ∧
      drawn_ops (cut_to s p).2 = drawn_ops s ∧
      drawn_ops (curve_to s p0 p1 p2 p3).2 = drawn_ops s := by
  simp [move_to, cut_to, curve_to, h]

theorem stopped_motion_is_rejected_witness :
    move_to demo_stopped ⟨1, 2⟩ = (false, demo_stopped) ∧
      cut_to demo_stopped ⟨1, 2⟩ = (false, demo_stopped) ∧
      curve_to demo_stopped ⟨0, 0⟩ ⟨1, 0⟩ ⟨1, 1⟩ ⟨2, 3⟩ = (false, demo_stopped) ∧
      drawn_ops (cut_to demo_stopped ⟨1, 2⟩).2 = drawn_ops demo_stopped ∧
      drawn_ops (curve_to demo_stopped ⟨0, 0⟩ ⟨1, 0⟩ ⟨1, 1⟩ ⟨2, 3⟩).2
        = drawn_ops demo_stopped :=
  stopped_motion_is_rejected demo_stopped rfl ⟨1, 2⟩ ⟨0, 0⟩ ⟨1, 0⟩ ⟨1, 1⟩ ⟨2, 3⟩

/-! ## Curve subdivision -/

/-- Claim C2: on a running device the point of the last step of `curve_to`
(i = 20, t = 1) is `p3`; the last `cut_to` is a cut to `p3`, whose target is
`convert_to_internal p3`; and `curve_to` ends with `current_position` at
`(100 * p3.x, 100 * p3.y)`. -/
theorem curve_to_ends_at_p3 (s : CV_sim) (h : s.running = true) (p0 p1 p2 p3 : xy) :
    curve_point p0 p1 p2 p3 20 = p3 ∧
      convert_to_internal (curve_point p0 p1 p2 p3 20) = convert_to_internal p3 ∧
      (∃ st : CV_sim, st.running = true ∧
        (curve_to s p0 p1 p2 p3).2 = (cut_to st p3).2) ∧
      (curve_to s p0 p1 p2 p3).2.current_position = ⟨100 * p3.x, 100 * p3.y⟩ := by
  have hl : curve_point p0 p1 p2 p3 20 = p3 := curve_point_last p0 p1 p2 p3
  have hc : (curve_to s p0 p1 p2 p3).2
      = (cut_to (cut_all { s with current_position := convert_to_internal p0 }
          ((List.range' 1 19).map (curve_point p0 p1 p2 p3))) p3).2 := by
    rw [curve_to_running s h, sections_split, List.map_append, List.map_singleton,
      cut_all_append, curve_point_last]
  have hr : (cut_all { s with current_position := convert_to_internal p0 }
      ((List.range' 1 19).map (curve_point p0 p1 p2 p3))).running = true := by
    rw [cut_all_running]; exact h
  refine ⟨hl, by rw [hl], ⟨_, hr, hc⟩, ?_⟩
  rw [hc, cut_to_position _ hr]
  simp [convert_to_internal, DPI_X, DPI_Y, mul_comm]

theorem curve_to_ends_at_p3_witness :
    curve_point ⟨0, 0⟩ ⟨1, 0⟩ ⟨1, 1⟩ ⟨2, 3⟩ 20 = ⟨2, 3⟩ ∧
      convert_to_internal (curve_point ⟨0, 0⟩ ⟨1, 0⟩ ⟨1, 1⟩ ⟨2, 3⟩ 20)
        = convert_to_internal ⟨2, 3⟩ ∧
      (∃ st : CV_sim, st.running = true ∧
        (curve_to demo_running ⟨0, 0⟩ ⟨1, 0⟩ ⟨1, 1⟩ ⟨2, 3⟩).2 = (cut_to st ⟨2, 3⟩).2) ∧
      (curve_to demo_running ⟨0, 0⟩ ⟨1, 0⟩ ⟨1, 1⟩ ⟨2, 3⟩).2.current_position
        = ⟨100 * 2, 100 * 3⟩ :=
  curve_to_ends_at_p3 demo_running rfl ⟨0, 0⟩ ⟨1, 0⟩ ⟨1, 1⟩ ⟨2, 3⟩

/-- Claim C3: at every step `i` (in particular `i = 1..20`), with `t = i / 20`,
the point `curve_to` hands to `cut_to`, computed from the coefficients
`C = 3(p1-p0)`, `B = 3(p2-p1) - C`, `A = (p3-p0) - C - B` as
`A t^3 + B t^2 + C t + p0`, is the cubic Bezier point in Bernstein form on both axes. -/
theorem curve_point_is_bernstein (p0 p1 p2 p3 : xy) (i : Nat) :
    curve_point p0 p1 p2 p3 i = bezier p0 p1 p2 p3 ((i : ℚ) / 20) := by
  simp only [curve_point, bezier, NUM_SECTIONS_PER_CURVE]
  congr 1 <;> (push_cast; ring)

/-! ## Tool width -/

/-- Claim C5: `set_tool_width w` returns false and gives back the state it
received when `w <= 0`; it returns true and leaves `tool_width >= 1` when
`w > 0`; so it returns true exactly when `w > 0`. This holds whichever numeric
type the member `tool_width` has. -/
theorem set_tool_width_guard (ty : WidthType) (s : CV_sim) (w : ℚ) :
    (w ≤ 0 → set_tool_width ty s w = (false, s)) ∧
      (w > 0 → (set_tool_width ty s w).1 = true ∧ 1 ≤ (set_tool_width ty s w).2.tool_width) ∧
      ((set_tool_width ty s w).1 = true ↔ w > 0) := by
  refine ⟨?_, ?_, ?_⟩
  · intro hw
    simp [set_tool_width, not_lt.mpr hw]
  · intro hw
    simp only [set_tool_width, hw, if_true, true_and]
    split
    · exact le_refl 1
    · next h => exact not_lt.mp h
  · by_cases hw : w > 0 <;> simp [set_tool_width, hw]

theorem set_tool_width_guard_witness :
    set_tool_width WidthType.floating CV_sim.mk0 (-1) = (false, CV_sim.mk0) ∧
      ((set_tool_width WidthType.integral CV_sim.mk0 (1 / 200)).1 = true ∧
        1 ≤ (set_tool_width WidthType.integral CV_sim.mk0 (1 / 200)).2.tool_width) :=
  ⟨(set_tool_width_guard WidthType.floating CV_sim.mk0 (-1)).1 (by norm_num),
    (set_tool_width_guard WidthType.integral CV_sim.mk0 (1 / 200)).2.1 (by norm_num)⟩

/-! ## Lifecycle -/

/-- Claim C7, counterexample: a default-constructed device (empty output file
name) that was started still has its canvas after `stop`. -/
theorem stop_short_name_keeps_canvas :
    size (start (fun _ => 0) CV_sim.mk0).2.output_filename < 5 ∧
      (stop (start (fun _ => 0) CV_sim.mk0).2).2.1.image ≠ none := by
  have hn : size (start (fun _ => 0) CV_sim.mk0).2.output_filename = 0 := by
    show size "" = 0
    decide
  refine ⟨by rw [hn]; decide, ?_⟩
  rw [stop_without_save _ (by rw [hn]; decide)]
  obtain ⟨img, hi⟩ := start_image_present (fun _ => 0) CV_sim.mk0
  show (start (fun _ => 0) CV_sim.mk0).2.image ≠ none
  rw [hi]
  exact Option.some_ne_none img

/-- Claim C7, amended: when the output file name has fewer than 5 characters
(the empty name of the default constructor included), `stop` saves nothing,
returns true, clears `running`, and leaves the canvas as it was: a canvas that
is present stays, with its content. -/
theorem stop_short_name (s : CV_sim) (h : size s.output_filename < 5) :
    (stop s).1 = true ∧ (stop s).2.2 = [] ∧ (stop s).2.1.running = false ∧
      (stop s).2.1.image = s.image ∧ (stop s).2.1 = { s with running := false } ∧
      size CV_sim.mk0.output_filename < 5 := by
  rw [stop_without_save s (by omega)]
  exact ⟨rfl, rfl, rfl, rfl, rfl, by decide⟩

theorem stop_short_name_witness :
    (stop demo_stopped).1 = true ∧ (stop demo_stopped).2.2 = [] ∧
      (stop demo_stopped).2.1.running = false ∧
      (stop demo_stopped).2.1.image = demo_stopped.image ∧
      (stop demo_stopped).2.1 = { demo_stopped with running := false } ∧
      size CV_sim.mk0.output_filename < 5 :=
  stop_short_name demo_stopped (by decide)

/-- Claim C8: `stop` always returns true and leaves `running = false`. When a
canvas exists and the output file name has more than 4 characters, exactly one
save is made, of that canvas with its content under that name, and the state
has no canvas afterwards; in every other case nothing is saved. -/
theorem stop_saves_once_when_named (s : CV_sim) :
    (stop s).1 = true ∧ (stop s).2.1.running = false ∧
      (∀ img, s.image = some img → size s.output_filename > 4 →
        (stop s).2.2 = [⟨s.output_filename, img⟩] ∧ (stop s).2.1.image = none) ∧
      (¬ (s.image ≠ none ∧ size s.output_filename > 4) → (stop s).2.2 = []) := by
  unfold stop
  cases hi : s.image with
  | none => simp
  | some img =>
      by_cases h : size s.output_filename > 4
      · simp [h]
      · simp [h]

theorem stop_saves_once_when_named_witness :
    (stop demo_running).2.2 = [⟨demo_running.output_filename, demo_image⟩] ∧
      (stop demo_running).2.1.image = none :=
  (stop_saves_once_when_named demo_running).2.2.1 demo_image rfl (by decide)

/-- Claim C9: `start` is idempotent: applied to the state `start` produced, it
returns true and gives that state back, whatever fresh memory holds. On a
running device with a canvas `start` changes nothing; in every state it keeps
`current_position`, and an existing canvas is kept as it is, content included. -/
theorem start_idempotent (fresh fresh2 : Nat → Nat) (s : CV_sim) :
    start fresh2 (start fresh s).2 = (true, (start fresh s).2) ∧
      (∀ img, s.running = true → s.image = some img → start fresh s = (true, s)) ∧
      (∀ img, s.image = some img → (start fresh s).2.image = some img) ∧
      (start fresh s).2.current_position = s.current_position := by
  refine ⟨?_, ?_, ?_, rfl⟩
  · obtain ⟨img, hi⟩ := start_image_present fresh s
    rw [start_with_canvas fresh2 _ img hi]
    rfl
  · intro img hr hi
    rw [start_with_canvas fresh s img hi]
    cases s
    simp only at hr
    subst hr
    rfl
  · intro img hi
    rw [start_with_canvas fresh s img hi]
    exact hi

theorem start_idempotent_witness :
    start (fun _ => 7) demo_running = (true, demo_running) :=
  (start_idempotent (fun _ => 7) (fun _ => 9) demo_running).2.1 demo_image rfl rfl

/-- Claim C10: on a state without canvas `start` returns true and yields
`running = true` with a canvas of `DPI_X * DEFAULT_SIZE_X = 600` by
`DPI_Y * DEFAULT_SIZE_Y = 600` pixels, every pixel zero whatever fresh memory
held, and nothing drawn. A device from either constructor has
`current_position = (0, 0)`, `tool_width = 1`, `running = false` and no canvas. -/
theorem start_allocates_blank_canvas (fresh : Nat → Nat) (s : CV_sim) (h : s.image = none) :
    (start fresh s).1 = true ∧ (start fresh s).2.running = true ∧
      (∃ img, (start fresh s).2.image = some img ∧
        img.width = DPI_X * DEFAULT_SIZE_X ∧ img.height = DPI_Y * DEFAULT_SIZE_Y ∧
        img.width = 600 ∧ img.height = 600 ∧ img.imageData.length = 600 * 600 ∧
        (∀ b ∈ img.imageData, b = 0) ∧
        (∀ x y, x < 600 → y < 600 → pixel img x y = some 0) ∧
        img.drawn = []) ∧
      (CV_sim.mk0.current_position = ⟨0, 0⟩ ∧ CV_sim.mk0.tool_width = 1 ∧
        CV_sim.mk0.running = false ∧ CV_sim.mk0.image = none) ∧
      (∀ name, (CV_sim.mk1 name).current_position = ⟨0, 0⟩ ∧ (CV_sim.mk1 name).tool_width = 1 ∧
        (CV_sim.mk1 name).running = false ∧ (CV_sim.mk1 name).image = none) := by
  have hn : DPI_Y * DEFAULT_SIZE_Y * widthStep (DPI_X * DEFAULT_SIZE_X) = 360000 := by
    rw [widthStep_default]
    rfl
  have hdata : (start fresh s).2.image
      = some { width := DPI_X * DEFAULT_SIZE_X, height := DPI_Y * DEFAULT_SIZE_Y,
               imageSize := 360000, imageData := List.replicate 360000 0, drawn := [] } := by
    simp only [start, h, cvCreateImage, hn]
    have hm := memset_full ((List.range 360000).map fresh) 0
    rw [List.length_map, List.length_range] at hm
    rw [hm]
  refine ⟨rfl, rfl, ⟨_, hdata, rfl, rfl, rfl, rfl, ?_, ?_, ?_, rfl⟩, ⟨rfl, rfl, rfl, rfl⟩,
    fun _ => ⟨rfl, rfl, rfl, rfl⟩⟩
  · exact List.length_replicate 360000 0
  · intro b hb
    exact List.eq_of_mem_replicate hb
  · intro x y hx hy
    have hlt : y * 600 + x < 360000 := by nlinarith
    simp only [pixel, widthStep_default]
    rw [List.getElem?_replicate, if_pos hlt]

theorem start_allocates_blank_canvas_witness :
    (start (fun i => i + 1) (CV_sim.mk1 "out.png")).1 = true ∧
      (start (fun i => i + 1) (CV_sim.mk1 "out.png")).2.running = true ∧
      (∃ img, (start (fun i => i + 1) (CV_sim.mk1 "out.png")).2.image = some img ∧
        img.width = DPI_X * DEFAULT_SIZE_X ∧ img.height = DPI_Y * DEFAULT_SIZE_Y ∧
        img.width = 600 ∧ img.height = 600 ∧ img.imageData.length = 600 * 600 ∧
        (∀ b ∈ img.imageData, b = 0) ∧
        (∀ x y, x < 600 → y < 600 → pixel img x y = some 0) ∧
        img.drawn = []) :=
  let h := start_allocates_blank_canvas (fun i => i + 1) (CV_sim.mk1 "out.png") rfl
  ⟨h.1, h.2.1, h.2.2.1⟩

/-! ## Facts about call sequences -/

theorem run_invariant (ty : WidthType) (P : CV_sim → Prop)
    (hstep : ∀ s op, P s → P (step ty s op)) (ops : List Op) (s : CV_sim) (h : P s) :
    P (run ty s ops) := by
  induction ops generalizing s with
  | nil => exact h
  | cons op rest ih => exact ih (step ty s op) (hstep s op h)

theorem cut_to_image_isSome (s : CV_sim) (p : xy) :
    (cut_to s p).2.image.isSome = s.image.isSome := by
  unfold cut_to
  split
  · rfl
  · cases s.image <;> rfl

theorem cut_all_image_isSome (pts : List xy) (s : CV_sim) :
    (cut_all s pts).image.isSome = s.image.isSome := by
  induction pts generalizing s with
  | nil => rfl
  | cons p ps ih =>
      show (cut_all (cut_to s p).2 ps).image.isSome = s.image.isSome
      rw [ih, cut_to_image_isSome]

theorem cut_all_tool_width (pts : List xy) (s : CV_sim) :
    (cut_all s pts).tool_width = s.tool_width := by
  induction pts generalizing s with
  | nil => rfl
  | cons p ps ih =>
      show (cut_all (cut_to s p).2 ps).tool_width = s.tool_width
      rw [ih, cut_to_tool_width]

theorem move_to_frame (s : CV_sim) (p : xy) :
    (move_to s p).2.running = s.running ∧ (move_to s p).2.image = s.image ∧
      (move_to s p).2.tool_width = s.tool_width ∧
      (move_to s p).2.output_filename = s.output_filename := by
  unfold move_to
  split <;> exact ⟨rfl, rfl, rfl, rfl⟩

theorem curve_to_frame (s : CV_sim) (p0 p1 p2 p3 : xy) :
    (curve_to s p0 p1 p2 p3).2.running = s.running ∧
      (curve_to s p0 p1 p2 p3).2.image.isSome = s.image.isSome ∧
      (curve_to s p0 p1 p2 p3).2.tool_width = s.tool_width := by
  unfold curve_to
  split
  · exact ⟨rfl, rfl, rfl⟩
  · obtain ⟨h1, h2, h3, -⟩ := move_to_frame s p0
    simp only [curve_loop_eq]
    refine ⟨?_, ?_, ?_⟩
    · rw [cut_all_running, h1]
    · rw [cut_all_image_isSome, h2]
    · rw [cut_all_tool_width, h3]

theorem stop_frame (s : CV_sim) :
    (stop s).2.1.running = false ∧ (stop s).2.1.tool_width = s.tool_width ∧
      (stop s).2.1.current_position = s.current_position := by
  unfold stop
  cases s.image with
  | none => exact ⟨rfl, rfl, rfl⟩
  | some img =>
      simp only
      split <;> exact ⟨rfl, rfl, rfl⟩

theorem set_tool_width_ge_one (ty : WidthType) (s : CV_sim) (w : ℚ) (h : 1 ≤ s.tool_width) :
    1 ≤ (set_tool_width ty s w).2.tool_width := by
  unfold set_tool_width
  split
  · simp only
    split
    · exact le_refl 1
    · next hlt => exact not_lt.mp hlt
  · exact h

theorem step_keeps_canvas_while_running (ty : WidthType) (s : CV_sim) (op : Op)
    (h : s.running = true → s.image.isSome = true) :
    (step ty s op).running = true → (step ty s op).image.isSome = true := by
  cases op with
  | start fresh =>
      intro _
      obtain ⟨img, hi⟩ := start_image_present fresh s
      show (start fresh s).2.image.isSome = true
      rw [hi]; rfl
  | stop =>
      intro hr
      have := (stop_frame s).1
      simp only [step] at hr
      rw [this] at hr
      exact absurd hr (by decide)
  | move_to p =>
      obtain ⟨h1, h2, -, -⟩ := move_to_frame s p
      simp only [step, h1, h2]
      exact h
  | cut_to p =>
      simp only [step, cut_to_running, cut_to_image_isSome]
      exact h
  | curve_to p0 p1 p2 p3 =>
      obtain ⟨h1, h2, -⟩ := curve_to_frame s p0 p1 p2 p3
      simp only [step, h1, h2]
      exact h
  | set_tool_width w =>
      obtain ⟨h1, h2, -, -⟩ := set_tool_width_frame ty s w
      simp only [step, h1, h2]
      exact h
  | get_dimensions => exact h
  | get_image => exact h

theorem step_keeps_tool_width_ge_one (ty : WidthType) (s : CV_sim) (op : Op)
    (h : 1 ≤ s.tool_width) : 1 ≤ (step ty s op).tool_width := by
  cases op with
  | start fresh => exact h
  | stop =>
      show 1 ≤ (stop s).2.1.tool_width
      rw [(stop_frame s).2.1]; exact h
  | move_to p =>
      show 1 ≤ (move_to s p).2.tool_width
      rw [(move_to_frame s p).2.2.1]; exact h
  | cut_to p =>
      show 1 ≤ (cut_to s p).2.tool_width
      rw [cut_to_tool_width]; exact h
  | curve_to p0 p1 p2 p3 =>
      show 1 ≤ (curve_to s p0 p1 p2 p3).2.tool_width
      rw [(curve_to_frame s p0 p1 p2 p3).2.2]; exact h
  | set_tool_width w => exact set_tool_width_ge_one ty s w h
  | get_dimensions => exact h
  | get_image => exact h

/-! ## Invariants of reachable states -/

/-- Claim C11: in every state reached from a freshly constructed device (either
constructor) by any sequence of `start`, `stop`, `move_to`, `cut_to`,
`curve_to`, `set_tool_width`, `get_dimensions` and `get_image` calls,
`running = true` implies that the canvas is present. -/
theorem running_implies_canvas (ty : WidthType) (name : String) (ops : List Op) :
    ((run ty CV_sim.mk0 ops).running = true → (run ty CV_sim.mk0 ops).image ≠ none) ∧
      ((run ty (CV_sim.mk1 name) ops).running = true →
        (run ty (CV_sim.mk1 name) ops).image ≠ none) := by
  have key : ∀ init : CV_sim, init.running = false →
      (run ty init ops).running = true → (run ty init ops).image ≠ none := by
    intro init h0 hr
    have hinv := run_invariant ty (fun s => s.running = true → s.image.isSome = true)
      (fun s op hs => step_keeps_canvas_while_running ty s op hs) ops init
      (by intro h; rw [h0] at h; exact absurd h (by decide))
    have hs := hinv hr
    intro hn
    rw [hn] at hs
    exact absurd hs (by decide)
  exact ⟨key CV_sim.mk0 rfl, key (CV_sim.mk1 name) rfl⟩

theorem running_implies_canvas_witness :
    (run WidthType.floating CV_sim.mk0
      [Op.start (fun _ => 0), Op.set_tool_width (1 / 2), Op.cut_to ⟨1, 1⟩]).image ≠ none :=
  (running_implies_canvas WidthType.floating "out.png"
    [Op.start (fun _ => 0), Op.set_tool_width (1 / 2), Op.cut_to ⟨1, 1⟩]).1
    (by simp [run, step, cut_to_running, set_tool_width_frame, start])

/-- Claim C12: in every state reached from a freshly constructed device (either
constructor) by any sequence of public calls with any arguments, non-positive
and arbitrarily small positive tool widths included, `tool_width >= 1`; this
holds whichever numeric type the member has. -/
theorem tool_width_always_ge_one (ty : WidthType) (name : String) (ops : List Op) :
    1 ≤ (run ty CV_sim.mk0 ops).tool_width ∧
      1 ≤ (run ty (CV_sim.mk1 name) ops).tool_width :=
  ⟨run_invariant ty (fun s => 1 ≤ s.tool_width)
      (fun s op hs => step_keeps_tool_width_ge_one ty s op hs) ops CV_sim.mk0 (le_refl 1),
    run_invariant ty (fun s => 1 ≤ s.tool_width)
      (fun s op hs => step_keeps_tool_width_ge_one ty s op hs) ops (CV_sim.mk1 name) (le_refl 1)⟩

/-! ## Straight cuts and moves -/

theorem start_fresh_canvas (fresh : Nat → Nat) (s : CV_sim) (h : s.image = none) :
    ∃ img, (start fresh s).2 = { s with image := some img, running := true } ∧
      img.drawn = [] := by
  unfold start
  rw [h]
  exact ⟨_, rfl, rfl⟩

/-- Claim C16: on a running device `move_to p` returns true, sets
`current_position` to `convert_to_internal p`, draws nothing, and leaves the
canvas with its content, `tool_width`, `running` and the output file name as
they were. -/
theorem move_to_only_moves (s : CV_sim) (hr : s.running = true) (p : xy) :
    move_to s p = (true, { s with current_position := convert_to_internal p }) ∧
      (move_to s p).2.current_position = convert_to_internal p ∧
      drawn_ops (move_to s p).2 = drawn_ops s ∧
      (move_to s p).2.image = s.image ∧
      (move_to s p).2.tool_width = s.tool_width ∧
      (move_to s p).2.running = s.running ∧
      (move_to s p).2.output_filename = s.output_filename := by
  have h : move_to s p = (true, { s with current_position := convert_to_internal p }) := by
    simp [move_to, hr]
  rw [h]
  exact ⟨rfl, rfl, rfl, rfl, rfl, rfl, rfl⟩

theorem move_to_only_moves_witness :
    move_to demo_running ⟨1, 2⟩
        = (true, { demo_running with current_position := convert_to_internal ⟨1, 2⟩ }) ∧
      (move_to demo_running ⟨1, 2⟩).2.current_position = convert_to_internal ⟨1, 2⟩ ∧
      drawn_ops (move_to demo_running ⟨1, 2⟩).2 = drawn_ops demo_running ∧
      (move_to demo_running ⟨1, 2⟩).2.image = demo_running.image ∧
      (move_to demo_running ⟨1, 2⟩).2.tool_width = demo_running.tool_width ∧
      (move_to demo_running ⟨1, 2⟩).2.running = demo_running.running ∧
      (move_to demo_running ⟨1, 2⟩).2.output_filename = demo_running.output_filename :=
  move_to_only_moves demo_running rfl ⟨1, 2⟩

/-! ## Coordinate transform -/

/-- Claim C14: `convert_to_internal` scales each axis by 100:
`convert_to_internal p = (100 * p.x, 100 * p.y)`. It is additive and
homogeneous, injective, and division by 100 on each axis is its two-sided
inverse. -/
theorem convert_to_internal_linear_invertible (p q : xy) (k : ℚ) :
    convert_to_internal p = ⟨100 * p.x, 100 * p.y⟩ ∧
      convert_to_internal (xy.add p q)
        = xy.add (convert_to_internal p) (convert_to_internal q) ∧
      convert_to_internal (xy.smul k p) = xy.smul k (convert_to_internal p) ∧
      Function.Injective convert_to_internal ∧
      convert_to_logical (convert_to_internal p) = p ∧
      convert_to_internal (convert_to_logical q) = q := by
  have hinv : ∀ r : xy, convert_to_logical (convert_to_internal r) = r := by
    intro r
    cases r
    simp [convert_to_logical, convert_to_internal, DPI_X, DPI_Y]
  refine ⟨?_, ?_, ?_, ?_, hinv p, ?_⟩
  · simp [convert_to_internal, DPI_X, DPI_Y, mul_comm]
  · simp only [convert_to_internal, xy.add]
    congr 1 <;> ring
  · simp only [convert_to_internal, xy.smul]
    congr 1 <;> ring
  · intro a b hab
    rw [← hinv a, ← hinv b, hab]
  · cases q
    simp [convert_to_logical, convert_to_internal, DPI_X, DPI_Y]

/-! ## Symmetry of the subdivision -/

/-- Claim C19: for every step `i` in 1..19 the i-th point `curve_to` cuts to on
`p0, p1, p2, p3` is the (20-i)-th point it cuts to on `p3, p2, p1, p0`. -/
theorem curve_point_reversal (p0 p1 p2 p3 : xy) (i : Nat) (h1 : 1 ≤ i) (h19 : i ≤ 19) :
    curve_point p0 p1 p2 p3 i = curve_point p3 p2 p1 p0 (20 - i) := by
  have hc : ((20 - i : Nat) : ℚ) = 20 - (i : ℚ) := by
    rw [Nat.cast_sub (by omega)]
    norm_num
  simp only [curve_point, NUM_SECTIONS_PER_CURVE, hc]
  congr 1 <;> (push_cast; ring)

theorem curve_point_reversal_witness :
    curve_point ⟨0, 0⟩ ⟨1, 0⟩ ⟨1, 1⟩ ⟨2, 3⟩ 7
      = curve_point ⟨2, 3⟩ ⟨1, 1⟩ ⟨1, 0⟩ ⟨0, 0⟩ (20 - 7) :=
  curve_point_reversal ⟨0, 0⟩ ⟨1, 0⟩ ⟨1, 1⟩ ⟨2, 3⟩ 7 (by decide) (by decide)

/-! ## Frame of `set_tool_width` -/

/-- Claim C20: `set_tool_width` does not look at the lifecycle: for any two
states and any `w` the result is the same, and so is the new `tool_width`
when `w > 0`, or when `w <= 0` and the two states had the same `tool_width`;
and the call leaves `running`, the canvas, `current_position` and the output
file name as they were. This holds whichever numeric type the member has. -/
theorem set_tool_width_ignores_lifecycle (ty : WidthType) (s s2 : CV_sim) (w : ℚ) :
    (set_tool_width ty s w).1 = (set_tool_width ty s2 w).1 ∧
      (w > 0 → (set_tool_width ty s w).2.tool_width = (set_tool_width ty s2 w).2.tool_width) ∧
      (w ≤ 0 → (set_tool_width ty s w).2.tool_width = s.tool_width) ∧
      (s.tool_width = s2.tool_width →
        (set_tool_width ty s w).2.tool_width = (set_tool_width ty s2 w).2.tool_width) ∧
      (set_tool_width ty s w).2.running = s.running ∧
      (set_tool_width ty s w).2.image = s.image ∧
      (set_tool_width ty s w).2.current_position = s.current_position ∧
      (set_tool_width ty s w).2.output_filename = s.output_filename := by
  obtain ⟨f1, f2, f3, f4⟩ := set_tool_width_frame ty s w
  refine ⟨?_, ?_, ?_, ?_, f1, f2, f3, f4⟩
  · by_cases hw : w > 0 <;> simp [set_tool_width, hw]
  · intro hw
    simp [set_tool_width, hw]
  · intro hw
    simp [set_tool_width, not_lt.mpr hw]
  · intro ht
    by_cases hw : w > 0 <;> simp [set_tool_width, hw, ht]

theorem set_tool_width_ignores_lifecycle_witness :
    (set_tool_width WidthType.floating demo_running (1 / 2)).2.tool_width
        = (set_tool_width WidthType.floating demo_stopped (1 / 2)).2.tool_width ∧
      (set_tool_width WidthType.integral demo_running (-3)).2.tool_width
        = demo_running.tool_width :=
  ⟨(set_tool_width_ignores_lifecycle WidthType.floating demo_running demo_stopped (1 / 2)).2.1
      (by norm_num),
    (set_tool_width_ignores_lifecycle WidthType.integral demo_running demo_stopped (-3)).2.2.1
      (by norm_num)⟩

/-! ## Canvas across stop and start -/

theorem stop_with_save (s : CV_sim) (img : IplImage) (hi : s.image = some img)
    (h : size s.output_filename > 4) :
    stop s = (true, { s with image := none, running := false }, [⟨s.output_filename, img⟩]) := by
  unfold stop
  rw [hi]
  simp [h]

theorem start_fresh_image_eq (fresh : Nat → Nat) (s : CV_sim) (h : s.image = none) :
    (start fresh s).2.image
      = some { width := DPI_X * DEFAULT_SIZE_X, height := DPI_Y * DEFAULT_SIZE_Y,
               imageSize := 360000, imageData := List.replicate 360000 0, drawn := [] } := by
  have hn : DPI_Y * DEFAULT_SIZE_Y * widthStep (DPI_X * DEFAULT_SIZE_X) = 360000 := by
    rw [widthStep_default]
    rfl
  simp only [start, h, cvCreateImage, hn]
  have hm := memset_full ((List.range 360000).map fresh) 0
  rw [List.length_map, List.length_range] at hm
  rw [hm]

theorem demo_drawn_facts :
    demo_drawn.running = true ∧ size demo_drawn.output_filename > 4 ∧
      ∃ img, demo_drawn.image = some img ∧ img.drawn.length = 1 := by
  obtain ⟨img, hs, hd⟩ := start_fresh_canvas (fun _ => 0) (CV_sim.mk1 "out.png") rfl
  unfold demo_drawn
  rw [hs]
  refine ⟨by simp [cut_to, move_to], ?_, ?_⟩
  · have hname : (cut_to (move_to { CV_sim.mk1 "out.png" with
        image := some img, running := true } ⟨0, 0⟩).2 ⟨1, 1⟩).2.output_filename = "out.png" := by
      simp [cut_to, move_to, CV_sim.mk1]
    rw [hname]
    decide
  · simp [cut_to, move_to, cvLine, hd]

/-- Claim C15, counterexample: a device built on "out.png", started, moved and
cut once has one line on its canvas; after `stop` and `start` its canvas has
nothing drawn, so it is not the canvas it had. -/
theorem canvas_lost_after_saving_stop :
    demo_drawn.image ≠ none ∧
      (start (fun _ => 0) (stop demo_drawn).2.1).2.image ≠ demo_drawn.image ∧
      drawn_ops (start (fun _ => 0) (stop demo_drawn).2.1).2 = [] ∧
      drawn_ops demo_drawn ≠ [] := by
  obtain ⟨-, hsz, img, hi, hl⟩ := demo_drawn_facts
  have hstop := stop_with_save demo_drawn img hi hsz
  have hfresh := start_fresh_image_eq (fun _ => 0) (stop demo_drawn).2.1 (by rw [hstop])
  have hne : img.drawn ≠ [] := by
    intro h
    rw [h] at hl
    exact absurd hl (by decide)
  refine ⟨by rw [hi]; exact Option.some_ne_none img, ?_, ?_, ?_⟩
  · rw [hfresh, hi]
    intro h
    have h2 := congrArg IplImage.drawn (Option.some.inj h)
    exact hne h2.symm
  · simp only [drawn_ops, hfresh]
  · simp only [drawn_ops, hi]
    exact hne

/-- Claim C15, amended: the canvas persists across `stop` then `start` exactly
when `stop` does not save. For a state with a canvas whose output file name
has at most 4 characters, `stop` followed by `start` leaves the same canvas
with the same content. When the name has more than 4 characters, `stop` saves
and releases the canvas, and the following `start` allocates a new 600 by 600
canvas, every byte zero and nothing drawn. -/
theorem canvas_persists_unless_saved (fresh : Nat → Nat) (s : CV_sim) (img : IplImage)
    (hi : s.image = some img) :
    (size s.output_filename ≤ 4 →
        (stop s).2.1.image = some img ∧ (start fresh (stop s).2.1).2.image = some img) ∧
      (size s.output_filename > 4 →
        (stop s).2.1.image = none ∧ (stop s).2.2 = [⟨s.output_filename, img⟩] ∧
        ∃ img2, (start fresh (stop s).2.1).2.image = some img2 ∧
          img2.width = 600 ∧ img2.height = 600 ∧ img2.drawn = [] ∧
          ∀ b ∈ img2.imageData, b = 0) := by
  refine ⟨?_, ?_⟩
  · intro h
    have hstop := stop_without_save s h
    have h1 : (stop s).2.1.image = some img := by rw [hstop]; exact hi
    exact ⟨h1, by rw [start_with_canvas fresh _ img h1]; exact h1⟩
  · intro h
    have hstop := stop_with_save s img hi h
    have h1 : (stop s).2.1.image = none := by rw [hstop]
    refine ⟨h1, by rw [hstop], _, start_fresh_image_eq fresh _ h1, rfl, rfl, rfl, ?_⟩
    intro b hb
    exact List.eq_of_mem_replicate hb

theorem canvas_persists_unless_saved_witness :
    ((stop demo_stopped).2.1.image = some demo_image ∧
        (start (fun _ => 3) (stop demo_stopped).2.1).2.image = some demo_image) ∧
      ((stop demo_running).2.1.image = none ∧
        (stop demo_running).2.2 = [⟨demo_running.output_filename, demo_image⟩] ∧
        ∃ img2, (start (fun _ => 3) (stop demo_running).2.1).2.image = some img2 ∧
          img2.width = 600 ∧ img2.height = 600 ∧ img2.drawn = [] ∧
          ∀ b ∈ img2.imageData, b = 0) :=
  ⟨(canvas_persists_unless_saved (fun _ => 3) demo_stopped demo_image rfl).1 (by decide),
    (canvas_persists_unless_saved (fun _ => 3) demo_running demo_image rfl).2 (by decide)⟩

/-! ## What leaves the position alone -/

/-- Claim C17: `start`, `stop`, `set_tool_width w` for every `w`,
`get_dimensions` and `get_image` leave `current_position` as it was; a call
after which `current_position` differs is a `move_to`, `cut_to` or `curve_to`
made while running, that is, one that succeeded. -/
theorem current_position_frame (ty : WidthType) (fresh : Nat → Nat) (s : CV_sim) (w : ℚ)
    (op : Op) :
    (start fresh s).2.current_position = s.current_position ∧
      (stop s).2.1.current_position = s.current_position ∧
      (set_tool_width ty s w).2.current_position = s.current_position ∧
      (step ty s Op.get_dimensions).current_position = s.current_position ∧
      (step ty s Op.get_image).current_position = s.current_position ∧
      ((step ty s op).current_position ≠ s.current_position →
        op.isMotion = true ∧ s.running = true) := by
  refine ⟨rfl, (stop_frame s).2.2, (set_tool_width_frame ty s w).2.2.1, rfl, rfl, ?_⟩
  intro hne
  cases op with
  | start f => exact absurd rfl hne
  | stop => exact absurd (stop_frame s).2.2 hne
  | move_to p =>
      refine ⟨rfl, ?_⟩
      by_contra hr
      exact hne (by simp [step, move_to, hr])
  | cut_to p =>
      refine ⟨rfl, ?_⟩
      by_contra hr
      exact hne (by simp [step, cut_to, hr])
  | curve_to p0 p1 p2 p3 =>
      refine ⟨rfl, ?_⟩
      by_contra hr
      exact hne (by simp [step, curve_to, hr])
  | set_tool_width v => exact absurd (set_tool_width_frame ty s v).2.2.1 hne
  | get_dimensions => exact absurd rfl hne
  | get_image => exact absurd rfl hne

theorem current_position_frame_witness :
    (Op.cut_to ⟨1, 1⟩).isMotion = true ∧ demo_running.running = true :=
  (current_position_frame WidthType.floating (fun _ => 0) demo_running 2 (Op.cut_to ⟨1, 1⟩)).2.2.2.2.2
    (by simp [step, cut_to, demo_running, convert_to_internal, DPI_X, DPI_Y])

/-! ## The annotated copy -/

theorem exactOps_agrees (s : CV_sim) (p p0 p1 p2 p3 : xy) (i : Nat) :
    convert_to_internal_fp exactOps p = convert_to_internal p ∧
      move_to_fp exactOps s p = move_to s p ∧ cut_to_fp exactOps s p = cut_to s p ∧
      curve_point_fp exactOps p0 p1 p2 p3 i = curve_point p0 p1 p2 p3 i :=
  ⟨rfl, rfl, rfl, rfl⟩

end Device
